import Mathlib

/-!
Verification of the changelog-generation script `scripts/changelog-ci.py`.

The development shallowly embeds the script into Lean:

* Python strings are `String` (ASCII-level: `lower` is modelled by
  `Char.toLower` on each character, which agrees with Python on ASCII data);
* Python ints from the API are `Nat` (pull-request numbers, HTTP status codes);
* JSON values decoded by `json.load` are the inductive `PyValue`, with Python
  truthiness modelled by `pyTruthy`;
* a function that raises is modelled with `Except String Unit`, the error
  message being the message of the raised exception;
* network responses are records carrying exactly the fields the script reads;
* the changelog file is modelled by its content, `Option String`
  (`none` = the file does not exist).  `write_changelog` maps the content
  before the run to the content after the run.  Since the section written at
  the top is always followed by a full copy of the prior content, the bytes
  written always cover the prior bytes, so the final file content is exactly
  the written stream even in the `r+` (no-truncate) open mode the script uses.
-/

/-- `str.lower()` on a Lean string (ASCII-faithful). -/
def pyLower (s : String) : String :=
  String.mk (s.data.map Char.toLower)

/-- `s.startswith(pre)`. -/
def pyStartsWith (s pre : String) : Bool :=
  pre.data.isPrefixOf s.data

/-- Helper for `str.split(' ')`: splits a character list at each single
space character, keeping empty fragments, exactly like Python splitting
with an explicit separator. -/
def pySplitSpaceAux : List Char → List Char → List (List Char)
  | [], acc => [acc.reverse]
  | c :: rest, acc =>
    if c == ' ' then acc.reverse :: pySplitSpaceAux rest []
    else pySplitSpaceAux rest (c :: acc)

/-- `title.split(' ')` — Python split on the single-space separator:
consecutive spaces produce empty tokens, and no other whitespace splits. -/
def pySplitSpace (s : String) : List String :=
  (pySplitSpaceAux s.data []).map String.mk

/-- Helper for whitespace splitting: like `pySplitSpaceAux` but cutting at
every whitespace character. -/
def wsSplitAux : List Char → List Char → List (List Char)
  | [], acc => [acc.reverse]
  | c :: rest, acc =>
    if c.isWhitespace then acc.reverse :: wsSplitAux rest []
    else wsSplitAux rest (c :: acc)

/-- Modelled from the spec: the spec describes the version as "the second
whitespace-separated word" of the pull-request title.  This splits on every
whitespace character and drops empty fragments (argumentless Python
`str.split()`), giving the list of whitespace-separated words. -/
def whitespaceWords (s : String) : List String :=
  ((wsSplitAux s.data []).map String.mk).filter (fun w => w != ("") )

/-- Sequential concatenation: `f.writelines(items)` writes each string of
`items` in order. -/
def strJoin : List String → String
  | [] => ("")
  | s :: rest => s ++ strJoin rest

/-- One pull-request record as built by
`_get_pull_requests_after_last_release`:
`{'title': ..., 'number': ..., 'url': ..., 'labels': [...]}`. -/
structure PullRequest where
  title : String
  number : Nat
  url : String
  labels : List String
deriving DecidableEq

/-- One entry of the `group_config` list of a validated configuration:
`{'title': ..., 'labels': [...]}` (the string-typed data model). -/
structure GroupConfig where
  title : String
  labels : List String
deriving DecidableEq

/-- One element of the list returned by `_parse_data`:
`{'title': ..., 'items': [...]}` where `items` are rendered changelog
lines.  (`_parse_data` stores either a list or a `map` object in `items`;
the `map` objects are materialised here.  The only place their truthiness
is tested, `write_changelog`, tests them together with a title check whose
outcome is unchanged by the materialisation at every reachable input,
because an `Other Changes` entry is only created from a non-empty pool.) -/
structure GroupData where
  title : String
  items : List String
deriving DecidableEq

/-- The configuration fields the writer reads.  `headerPrefix` models the
`header_prefix` key, `groupConfig` the `group_config` key. -/
structure Config where
  headerPrefix : String
  groupConfig : List GroupConfig
deriving DecidableEq

/-- `ChangelogCI._get_changelog_line`:
`"* [#{number}]({url}): {title}\n"`. -/
def get_changelog_line (item : PullRequest) : String :=
  "* [#" ++ toString item.number ++ "](" ++ item.url ++ "): " ++ item.title ++ "\n"

/-- The matching test of `_parse_data`:
`any(label in pull_request['labels'] for label in config['labels'])`. -/
def pr_matches (labels : List String) (pr : PullRequest) : Bool :=
  labels.any (fun l => pr.labels.contains l)

/-- `list.remove(x)`: removes the first element equal to `x`.  (Python
raises `ValueError` when `x` is absent; at the call site in `_parse_data`
the removed element was just read from the list, so it is always present
and the missing case below is unreachable.) -/
def py_remove : List PullRequest → PullRequest → List PullRequest
  | [], _ => []
  | y :: ys, x => if y = x then ys else y :: py_remove ys x

/-- The inner loop of `_parse_data` over one group:

```
for pull_request in pull_request_data:
    if any(...):
        items.append(self._get_changelog_line(pull_request))
        pull_request_data.remove(pull_request)
```

CPython iterates the `for` with a cursor index `i`: it reads the element at
index `i` of the (mutated) list, runs the body, then moves to `i + 1`.
`remove` deletes the first element equal to the one just read; that element
sits at an index `j <= i`, so the deletion shifts every later element one
slot left and the element that sat immediately after the cursor is never
read by this loop (it stays in the list).  The state is kept here as the
partition of the current list into `passed` (the slots strictly before the
cursor, in order) and the upcoming slots, so the list right now is
`passed ++ upcoming`:

* on a non-match, the read element joins `passed`;
* on a match, the line is appended, the first copy of the read element is
  removed from `passed ++ [pr]` (exactly what `remove` does to the part of
  the list at or before the cursor), and the element right after the
  cursor — `next` — moves into `passed` unread.

Returns (items, final list). -/
def parse_data_loop (labels : List String) :
    List PullRequest → List PullRequest → List String →
      List String × List PullRequest
  | passed, [], acc => (acc, passed)
  | passed, pr :: rest, acc =>
    if pr_matches labels pr then
      match rest with
      | [] => (acc ++ [get_changelog_line pr], py_remove (passed ++ [pr]) pr)
      | next :: rest2 =>
        parse_data_loop labels (py_remove (passed ++ [pr]) pr ++ [next]) rest2
          (acc ++ [get_changelog_line pr])
    else
      parse_data_loop labels (passed ++ [pr]) rest acc

/-- The outer loop of `_parse_data` over the configured groups: for each
group, run the inner loop on the current pool, emit
`{'title': '#### ' + title + '\n\n', 'items': items}`, and carry the
mutated pool to the next group.  Returns (group data, final pool). -/
def parse_data_groups :
    List GroupConfig → List PullRequest → List GroupData × List PullRequest
  | [], prs => ([], prs)
  | g :: gs, prs =>
    let r := parse_data_loop g.labels [] prs []
    let rest := parse_data_groups gs r.2
    (⟨ "#### " ++ g.title ++ "\n\n", r.1 ⟩ :: rest.1, rest.2)

/-- `ChangelogCI._parse_data`.  With a non-empty `group_config`, the groups
are processed in order and any pull requests left in the pool afterwards
are emitted as a final `#### Other Changes` group; with an empty
`group_config`, everything is emitted in a single group with empty title. -/
def parse_data (group_config : List GroupConfig)
    (pull_request_data : List PullRequest) : List GroupData :=
  match group_config with
  | [] => [⟨ ("") , pull_request_data.map get_changelog_line ⟩]
  | _ :: _ =>
    if (parse_data_groups group_config pull_request_data).2 = [] then
      (parse_data_groups group_config pull_request_data).1
    else
      (parse_data_groups group_config pull_request_data).1
        ++ [⟨ "#### Other Changes" ++ "\n\n",
              (parse_data_groups group_config pull_request_data).2.map
                get_changelog_line ⟩]

/-- `ChangelogCI._get_version_number`: if the lowercased title starts with
the string `release`, the version is element 1 of `title.split(' ')`;
the `IndexError` raised when that element does not exist is swallowed by
the `except`, leaving the initial `''`. -/
def get_version_number (title : String) : String :=
  if pyStartsWith (pyLower title) ("release") then
    match (pySplitSpace title).get? 1 with
    | some v => v
    | none => ("")
  else ("")

/-- What the `releases/latest` endpoint call returns to the script: the
status code and, when the script reads it, the `published_at` field of the
decoded body. -/
structure ReleaseResponse where
  statusCode : Nat
  publishedAt : String
deriving DecidableEq

/-- `ChangelogCI._get_latest_release_date`: `published_at` of the body on
HTTP 200, otherwise the initial `''` (the non-200 branch only logs a
warning). -/
def get_latest_release_date (response : ReleaseResponse) : String :=
  if response.statusCode = 200 then response.publishedAt else ("")

/-- One element of `items` in the search response body, with the fields
the script reads. -/
structure SearchItem where
  title : String
  number : Nat
  html_url : String
  labels : List String
deriving DecidableEq

/-- The search-endpoint response: status code and, for the fields the
script reads, `total_count` and `items` of the decoded body. -/
structure SearchResponse where
  statusCode : Nat
  totalCount : Nat
  items : List SearchItem
deriving DecidableEq

/-- `ChangelogCI._get_pull_requests_after_last_release`: on HTTP 200 with
`total_count > 0`, each item is mapped to a record (with `url` taken from
`html_url`); otherwise the initial empty list is returned (the other
branches only log). -/
def get_pull_requests_after_last_release (response : SearchResponse) :
    List PullRequest :=
  if response.statusCode = 200 then
    if 0 < response.totalCount then
      response.items.map (fun item => ⟨ item.title, item.number, item.html_url, item.labels ⟩)
    else []
  else []

/-- The writes `write_changelog` performs for one element of the data list:

```
if title and items:
    f.write('\n')
    f.write(title)
f.write('\n')
f.writelines(items)
```

(Python truthiness of the stored title and items: non-empty string,
non-empty list.) -/
def render_group (d : GroupData) : String :=
  (if d.title ≠ ("") ∧ d.items ≠ [] then "\n" ++ d.title else ("")) ++ "\n"
    ++ strJoin d.items

/-- `ChangelogCI.write_changelog` as a map from the changelog-file content
before the run to the content after the run (`none` = no file, in which
case mode `w+` creates it and `f.read()` gives `''`; with an existing file,
mode `r+` reads the whole prior content into `body`).  The writer exits
early — leaving the file untouched — when no version is derived from the
pull-request title or when no pull request was fetched.  Otherwise it
writes, from the start of the file: the header line, the `=` underline, the
group blocks in order, and finally (when the prior content is non-empty)
two newlines followed by the prior content. -/
def write_changelog (cfg : Config) (pr_title : String)
    (pull_request_data : List PullRequest) (file_content : Option String) :
    Option String :=
  let version := get_version_number pr_title
  if version = ("") then file_content
  else if pull_request_data = [] then file_content
  else
    let body := file_content.getD ("")
    let header := cfg.headerPrefix ++ " " ++ version
    let opening := header ++ "\n" ++ String.mk (List.replicate header.length '=') ++ "\n"
    let written := (parse_data cfg.groupConfig pull_request_data).foldl
      (fun acc d => acc ++ render_group d) opening
    if body = ("") then some written else some (written ++ "\n\n" ++ body)

/-- JSON values as decoded by `json.load`, together with Python `None`
(`dict.get` of a missing key). -/
inductive PyValue where
  | none : PyValue
  | bool : Bool → PyValue
  | int : Int → PyValue
  | str : String → PyValue
  | list : List PyValue → PyValue
  | dict : List (String × PyValue) → PyValue

/-- Python truthiness of a decoded JSON value (`if not x`). -/
def pyTruthy : PyValue → Bool
  | .none => false
  | .bool b => b
  | .int n => n != 0
  | .str s => s != ("")
  | .list [] => false
  | .list (_ :: _) => true
  | .dict [] => false
  | .dict (_ :: _) => true

/-- `d.get(key)` on the key/value list of a decoded JSON object: the value
at the first matching key, or `None` when the key is absent.  (JSON objects
decoded by `json.load` have distinct keys, so first-match is the Python
lookup.) -/
def dictGet : List (String × PyValue) → String → PyValue
  | [], _ => .none
  | (k, v) :: rest, key => if k == key then v else dictGet rest key

/-- `config.get(key)` generalised to any value: `None` when the value is
not a mapping (the script only calls `.get` after an `isinstance` check,
so the non-dict case never arises in it). -/
def getKey (v : PyValue) (key : String) : PyValue :=
  match v with
  | .dict kvs => dictGet kvs key
  | _ => .none

/-- Whether a decoded JSON value is a mapping containing the key. -/
def hasKey (v : PyValue) (key : String) : Bool :=
  match v with
  | .dict kvs => kvs.any (fun p => p.1 == key)
  | _ => false

/-- The body of the `for config in group_config` loop of `validate_config`:
the element must be a dict, its `title` and `labels` must be truthy, and
`labels` must be a list. -/
def validate_group_item (g : PyValue) : Except String Unit :=
  match g with
  | .dict kvs =>
    if pyTruthy (dictGet kvs ("title")) = false then
      .error "group_config item must contain title"
    else if pyTruthy (dictGet kvs ("labels")) = false then
      .error "group_config item must contain labels"
    else
      match dictGet kvs ("labels") with
      | .list _ => .ok ()
      | _ => .error "group_config labels must be an Array"
  | _ => .error "group_config items must have key, value pairs of title and labels"

/-- The `for` loop of `validate_config`: raising at the first bad element. -/
def validate_groups : List PyValue → Except String Unit
  | [] => .ok ()
  | g :: gs =>
    match validate_group_item g with
    | .ok _ => validate_groups gs
    | .error e => .error e

/-- `validate_config`: the config must be a dict, `header_prefix` must be
truthy, `group_config` must be a list, and every element must pass
`validate_group_item`. -/
def validate_config (config : PyValue) : Except String Unit :=
  match config with
  | .dict kvs =>
    if pyTruthy (dictGet kvs ("header_prefix")) = false then
      .error "Configuration Must Contain header_prefix"
    else
      match dictGet kvs ("group_config") with
      | .list gs => validate_groups gs
      | _ => .error "group_config must be an Array"
  | _ => .error "Configuration does not contain required key, value pairs"

/-- Whether a validation result is a normal return. -/
def isOk : Except String Unit → Bool
  | .ok _ => true
  | .error _ => false

/-- The accept side of claim C6 for one group entry: a mapping with a
non-empty string `title` and a non-empty list `labels`. -/
def ValidGroupItem (g : PyValue) : Prop :=
  (∃ kvs, g = .dict kvs)
    ∧ (∃ t, getKey g ("title") = .str t ∧ t ≠ ("") )
    ∧ (∃ ls, getKey g ("labels") = .list ls ∧ ls ≠ [])

/-- The accept side of claim C6: a mapping with a non-empty string
`header_prefix` and a `group_config` list of valid group entries. -/
def ValidConfigShape (c : PyValue) : Prop :=
  (∃ kvs, c = .dict kvs)
    ∧ (∃ h, getKey c ("header_prefix") = .str h ∧ h ≠ ("") )
    ∧ (∃ gs, getKey c ("group_config") = .list gs ∧ ∀ g ∈ gs, ValidGroupItem g)

/-! Concrete data used by the claim witnesses and counterexamples. -/

/-- Group `A` of the C1 scenario, matching label `a`. -/
def gcfgA : GroupConfig := ⟨ "A", ["a"] ⟩

/-- Group `B` of the C1 scenario, matching label `b`. -/
def gcfgB : GroupConfig := ⟨ "B", ["b"] ⟩

/-- First fetched pull request of the C1 scenario: labelled `a` only. -/
def prA1 : PullRequest := ⟨ "first", 1, "http://x/1", ["a"] ⟩

/-- Second fetched pull request of the C1 scenario: labelled both `a`
and `b`, so its labels intersect the label sets of both groups. -/
def prA2 : PullRequest := ⟨ "second", 2, "http://x/2", ["a", "b"] ⟩

/-- The configuration of the end-to-end example of the spec. -/
def cfgW : Config := ⟨ "Version:", [⟨ "Bug Fixes", ["bug"] ⟩] ⟩

/-- The fetched pull request of the end-to-end example of the spec. -/
def prW : PullRequest := ⟨ "Fix crash", 5, "http://x/5", ["bug"] ⟩

/-- A failed search-endpoint response (non-200) whose body nevertheless
carries items. -/
def respErr : SearchResponse := ⟨ 404, 3, [⟨ "t", 9, "u", ["x"] ⟩] ⟩

/-! String helper lemmas. -/

theorem str_data_append (a b : String) : (a ++ b).data = a.data ++ b.data := rfl

theorem str_append_assoc (a b c : String) : (a ++ b) ++ c = a ++ (b ++ c) := by
  apply String.ext
  simp only [str_data_append, List.append_assoc]

theorem str_append_empty (a : String) : a ++ ("") = a := by
  apply String.ext
  simp only [str_data_append]
  exact List.append_nil _

theorem str_empty_append (a : String) : ("") ++ a = a := by
  apply String.ext
  simp only [str_data_append]
  rfl

theorem str_eq_empty_iff (s : String) : s = ("") ↔ s.data = [] := by
  constructor
  · intro h; rw [h]
  · intro h
    apply String.ext
    rw [h]

theorem str_append_ne_empty_left (a b : String) (ha : a ≠ ("")) :
    a ++ b ≠ ("") := by
  intro h
  rw [str_eq_empty_iff, str_data_append, List.append_eq_nil] at h
  exact ha ((str_eq_empty_iff a).mpr h.1)

/-! Permutation facts about the grouping loop. -/

theorem py_remove_perm (x : PullRequest) :
    ∀ l : List PullRequest, x ∈ l → List.Perm l (x :: py_remove l x) := by
  intro l
  induction l with
  | nil => intro h; cases h
  | cons y ys ih =>
    intro h
    by_cases hyx : y = x
    · subst hyx
      have hr : py_remove (y :: ys) y = ys := by simp [py_remove]
      rw [hr]
    · have hr : py_remove (y :: ys) x = y :: py_remove ys x := by
        simp [py_remove, hyx]
      rw [hr]
      have hm : x ∈ ys := by
        rcases List.mem_cons.mp h with h1 | h1
        · exact absurd h1.symm hyx
        · exact h1
      exact ((ih hm).cons y).trans (List.Perm.swap x y _)

theorem parse_data_loop_perm_aux (labels : List String) :
    ∀ (n : Nat) (upcoming passed acc : _), upcoming.length ≤ n →
      List.Perm
        ((parse_data_loop labels passed upcoming acc).1
          ++ (parse_data_loop labels passed upcoming acc).2.map get_changelog_line)
        (acc ++ (passed ++ upcoming).map get_changelog_line) := by
  intro n
  induction n with
  | zero =>
    intro upcoming passed acc hlen
    have hnil : upcoming = [] := List.length_eq_zero.mp (Nat.le_zero.mp hlen)
    subst hnil
    simp only [parse_data_loop, List.append_nil]
    exact List.Perm.refl _
  | succ n ih =>
    intro upcoming passed acc hlen
    cases upcoming with
    | nil =>
      simp only [parse_data_loop, List.append_nil]
      exact List.Perm.refl _
    | cons pr rest =>
      cases rest with
      | nil =>
        by_cases hm : pr_matches labels pr = true
        · simp only [parse_data_loop, hm, if_true]
          have goal2 : List.Perm
              (get_changelog_line pr
                :: (py_remove (passed ++ [pr]) pr).map get_changelog_line)
              ((passed ++ [pr]).map get_changelog_line) := by
            simpa using ((py_remove_perm pr (passed ++ [pr]) (by simp)).map
              get_changelog_line).symm
          have heq : (acc ++ [get_changelog_line pr])
                ++ (py_remove (passed ++ [pr]) pr).map get_changelog_line
              = acc ++ (get_changelog_line pr
                  :: (py_remove (passed ++ [pr]) pr).map get_changelog_line) := by
            simp
          rw [heq]
          exact List.Perm.append_left acc goal2
        · rw [Bool.not_eq_true] at hm
          simp only [parse_data_loop, hm, Bool.false_eq_true, if_false,
            List.append_nil]
          have heq : (passed ++ [pr]).map get_changelog_line
              = (passed ++ [pr]).map get_changelog_line := rfl
          exact List.Perm.refl _
      | cons next rest2 =>
        by_cases hm : pr_matches labels pr = true
        · simp only [parse_data_loop, hm, if_true]
          have hle : rest2.length ≤ n := by
            simp only [List.length_cons] at hlen
            omega
          have h1 := ih rest2 (py_remove (passed ++ [pr]) pr ++ [next])
            (acc ++ [get_changelog_line pr]) hle
          refine h1.trans ?_
          have base := ((py_remove_perm pr (passed ++ [pr]) (by simp)).map
            get_changelog_line).symm
          have base2 := base.append_right
            (get_changelog_line next :: rest2.map get_changelog_line)
          have key2 : List.Perm
              (get_changelog_line pr
                :: ((py_remove (passed ++ [pr]) pr).map get_changelog_line
                    ++ (get_changelog_line next :: rest2.map get_changelog_line)))
              (passed.map get_changelog_line
                ++ (get_changelog_line pr
                    :: get_changelog_line next :: rest2.map get_changelog_line)) := by
            simpa [List.map_append, List.append_assoc] using base2
          have heq1 : (acc ++ [get_changelog_line pr])
                ++ ((py_remove (passed ++ [pr]) pr ++ [next]) ++ rest2).map
                  get_changelog_line
              = acc ++ (get_changelog_line pr
                  :: ((py_remove (passed ++ [pr]) pr).map get_changelog_line
                      ++ (get_changelog_line next :: rest2.map get_changelog_line))) := by
            simp [List.append_assoc]
          have heq2 : acc ++ ((passed ++ pr :: next :: rest2).map get_changelog_line)
              = acc ++ (passed.map get_changelog_line
                  ++ (get_changelog_line pr
                      :: get_changelog_line next :: rest2.map get_changelog_line)) := by
            simp [List.append_assoc]
          rw [heq1, heq2]
          exact List.Perm.append_left acc key2
        · rw [Bool.not_eq_true] at hm
          simp only [parse_data_loop, hm, Bool.false_eq_true, if_false]
          have hle : (next :: rest2).length ≤ n := by
            simp only [List.length_cons] at hlen
            simp only [List.length_cons]
            omega
          have h1 := ih (next :: rest2) (passed ++ [pr]) acc hle
          refine h1.trans ?_
          simp [List.append_assoc]

theorem parse_data_loop_perm (labels : List String)
    (passed upcoming : List PullRequest) (acc : List String) :
    List.Perm
      ((parse_data_loop labels passed upcoming acc).1
        ++ (parse_data_loop labels passed upcoming acc).2.map get_changelog_line)
      (acc ++ (passed ++ upcoming).map get_changelog_line) :=
  parse_data_loop_perm_aux labels upcoming.length upcoming passed acc (Nat.le_refl _)

theorem parse_data_groups_perm :
    ∀ (gc : List GroupConfig) (prs : List PullRequest),
      List.Perm
        (((parse_data_groups gc prs).1.map GroupData.items).flatten
          ++ (parse_data_groups gc prs).2.map get_changelog_line)
        (prs.map get_changelog_line) := by
  intro gc
  induction gc with
  | nil =>
    intro prs
    simp only [parse_data_groups, List.map_nil, List.flatten_nil, List.nil_append]
    exact List.Perm.refl _
  | cons g gs ih =>
    intro prs
    simp only [parse_data_groups, List.map_cons, List.flatten_cons]
    have h1 := ih (parse_data_loop g.labels [] prs []).2
    have h2 := parse_data_loop_perm g.labels [] prs []
    simp only [List.nil_append] at h2
    rw [List.append_assoc]
    exact (List.Perm.append_left _ h1).trans h2

/-! Writer helper lemmas. -/

theorem foldl_render (l : List GroupData) :
    ∀ init : String,
      l.foldl (fun acc d => acc ++ render_group d) init
        = init ++ strJoin (l.map render_group) := by
  induction l with
  | nil =>
    intro init
    simp only [List.foldl_nil, List.map_nil, strJoin, str_append_empty]
  | cons d rest ih =>
    intro init
    simp only [List.foldl_cons, List.map_cons, strJoin]
    rw [ih, str_append_assoc]

theorem write_changelog_none_eq (cfg : Config) (t : String)
    (prs : List PullRequest)
    (hv : get_version_number t ≠ ("")) (hp : prs ≠ []) :
    write_changelog cfg t prs none
      = some (cfg.headerPrefix ++ " " ++ get_version_number t ++ "\n"
          ++ String.mk (List.replicate
              (cfg.headerPrefix ++ " " ++ get_version_number t).length '=') ++ "\n"
          ++ strJoin ((parse_data cfg.groupConfig prs).map render_group)) := by
  unfold write_changelog
  rw [if_neg hv, if_neg hp]
  simp only [Option.getD_none, if_true]
  rw [foldl_render]

theorem write_changelog_some_eq (cfg : Config) (t : String)
    (prs : List PullRequest) (b : String)
    (hv : get_version_number t ≠ ("")) (hp : prs ≠ []) (hb : b ≠ ("")) :
    write_changelog cfg t prs (some b)
      = some (cfg.headerPrefix ++ " " ++ get_version_number t ++ "\n"
          ++ String.mk (List.replicate
              (cfg.headerPrefix ++ " " ++ get_version_number t).length '=') ++ "\n"
          ++ strJoin ((parse_data cfg.groupConfig prs).map render_group)
          ++ "\n\n" ++ b) := by
  unfold write_changelog
  rw [if_neg hv, if_neg hp]
  simp only [Option.getD_some]
  rw [if_neg hb, foldl_render]

theorem write_changelog_no_version (cfg : Config) (t : String)
    (prs : List PullRequest) (fc : Option String)
    (hv : get_version_number t = ("")) :
    write_changelog cfg t prs fc = fc := by
  unfold write_changelog
  rw [if_pos hv]

theorem write_changelog_no_data (cfg : Config) (t : String)
    (fc : Option String) :
    write_changelog cfg t [] fc = fc := by
  unfold write_changelog
  by_cases hv : get_version_number t = ("")
  · rw [if_pos hv]
  · rw [if_neg hv, if_pos rfl]

/-! Validation helper lemmas. -/

theorem dictGet_of_no_key :
    ∀ (kvs : List (String × PyValue)) (key : String),
      kvs.any (fun p => p.1 == key) = false → dictGet kvs key = .none := by
  intro kvs key
  induction kvs with
  | nil => intro _; rfl
  | cons p rest ih =>
    intro h
    simp only [List.any_cons, Bool.or_eq_false_iff] at h
    simp only [dictGet, h.1, Bool.false_eq_true, if_false]
    exact ih h.2

theorem validate_group_item_ok (g : PyValue) (hg : ValidGroupItem g) :
    validate_group_item g = .ok () := by
  obtain ⟨⟨kvs, rfl⟩, ⟨t, ht, htne⟩, ⟨ls, hl, hlne⟩⟩ := hg
  simp only [getKey] at ht hl
  have ht2 : pyTruthy (dictGet kvs ("title")) = true := by
    rw [ht]
    simp only [pyTruthy, bne_iff_ne, ne_eq]
    exact htne
  have hl2 : pyTruthy (PyValue.list ls) = true := by
    cases ls with
    | nil => exact absurd rfl hlne
    | cons a rest => rfl
  simp only [validate_group_item, ht2, hl, hl2, Bool.true_eq_false, if_false]

theorem validate_groups_ok :
    ∀ gs : List PyValue, (∀ g ∈ gs, ValidGroupItem g) →
      validate_groups gs = .ok () := by
  intro gs
  induction gs with
  | nil => intro _; rfl
  | cons g rest ih =>
    intro h
    have h1 := validate_group_item_ok g (h g (List.mem_cons_self g rest))
    simp only [validate_groups, h1]
    exact ih (fun x hx => h x (List.mem_cons_of_mem g hx))

theorem validate_group_item_err (g : PyValue)
    (hg : hasKey g ("title") = false ∨ hasKey g ("labels") = false) :
    isOk (validate_group_item g) = false := by
  cases g with
  | dict kvs =>
    simp only [hasKey] at hg
    by_cases ht : pyTruthy (dictGet kvs ("title")) = true
    · rcases hg with h | h
      · rw [dictGet_of_no_key kvs ("title") h] at ht
        exact absurd ht (by simp [pyTruthy])
      · have hl : pyTruthy (dictGet kvs ("labels")) = false := by
          rw [dictGet_of_no_key kvs ("labels") h]
          rfl
        simp only [validate_group_item, ht, Bool.true_eq_false, if_false, hl,
          if_true, isOk]
    · rw [Bool.not_eq_true] at ht
      simp only [validate_group_item, ht, if_true, isOk]
  | none => rfl
  | bool b => rfl
  | int n => rfl
  | str s => rfl
  | list xs => rfl

theorem validate_groups_err :
    ∀ (gs : List PyValue) (g : PyValue), g ∈ gs →
      isOk (validate_group_item g) = false →
      isOk (validate_groups gs) = false := by
  intro gs
  induction gs with
  | nil => intro g h _; cases h
  | cons a rest ih =>
    intro g hmem hbad
    rcases List.mem_cons.mp hmem with h | h
    · subst h
      cases hre : validate_group_item g with
      | ok u => rw [hre] at hbad; exact absurd hbad (by simp [isOk])
      | error e => simp only [validate_groups, hre, isOk]
    · cases hre : validate_group_item a with
      | ok u => simp only [validate_groups, hre]; exact ih g h hbad
      | error e => simp only [validate_groups, hre, isOk]

/-! Further concrete data used by witnesses and counterexamples. -/

/-- A pull request whose label matches no configured group. -/
def prOther : PullRequest := ⟨ "misc", 7, "http://x/7", ["docs"] ⟩

/-- A successful latest-release response. -/
def relHit : ReleaseResponse := ⟨ 200, "2020-05-01T00:00:00Z" ⟩

/-- A latest-release response for a repository without releases. -/
def relMiss : ReleaseResponse := ⟨ 404, "ignored" ⟩

/-- Modelled from the spec: the section layout claimed for the end-to-end
example — header line, `=` underline of the same length, then for the one
non-empty group exactly one blank line, the group title line, exactly one
blank line, and the bullet lines. -/
def specSectionC3 : String :=
  "Version: 2.0.0\n==============\n\n#### Bug Fixes\n\n* [#5](http://x/5): Fix crash\n"

/-- A truthy but non-string-typed group entry accepted by the validator. -/
def grpOdd : PyValue :=
  .dict [( "title", .int 7 ), ( "labels", .list [ .int 1, .int 2 ] )]

/-- A truthy but non-string-typed configuration accepted by the validator. -/
def cfgOdd : PyValue :=
  .dict [( "header_prefix", .int 5 ), ( "group_config", .list [grpOdd] )]

/-- A configuration of the shape the spec calls valid. -/
def cValid : PyValue :=
  .dict [( "header_prefix", .str "Version:" ),
         ( "group_config",
           .list [ .dict [( "title", .str "Bugs" ),
                          ( "labels", .list [ .str "bug" ] )] ] )]

/-- A configuration without the `header_prefix` key. -/
def cNoHeader : PyValue := .dict [( "group_config", .list [] )]

/-- A configuration whose `group_config` is not a list. -/
def cBadGC : PyValue :=
  .dict [( "header_prefix", .str "V" ), ( "group_config", .int 3 )]

/-- A configuration with a group entry that has no `title` key. -/
def cBadGroup : PyValue :=
  .dict [( "header_prefix", .str "V" ),
         ( "group_config",
           .list [ .dict [( "labels", .list [ .str "x" ] )] ] )]

/-! The claims. -/

/-- C1: evaluation of `_parse_data` at the failing input of the claim.
With groups `A` (labels `a`) before `B` (labels `b`) and the fetched list
`[prA1, prA2]` where `prA1` carries label `a` and `prA2` carries labels
`a` and `b`, the claim says `prA2` — whose labels intersect both label
sets — is claimed by the first matching group `A`.  The code instead puts
`prA2` into group `B`: removing `prA1` from the list being iterated makes
the loop of group `A` skip `prA2`, so it is still in the pool when group
`B` is processed. -/
theorem c1_first_match_loses :
    parse_data [gcfgA, gcfgB] [prA1, prA2]
      = [⟨ "#### A\n\n", [get_changelog_line prA1] ⟩,
         ⟨ "#### B\n\n", [get_changelog_line prA2] ⟩]
    ∧ pr_matches gcfgA.labels prA2 = true
    ∧ pr_matches gcfgB.labels prA2 = true := by
  exact ⟨ rfl, rfl, rfl ⟩

/-- C9: partition invariant of the grouping.  For every configuration and
every fetched list, the concatenation of the item lists of all groups
returned by `_parse_data` is a permutation of the rendered lines of the
input records: every record is rendered in exactly one group (counted
with multiplicity) — none dropped, none duplicated — even when its labels
match several configured groups. -/
theorem c9_partition (gc : List GroupConfig) (prs : List PullRequest) :
    List.Perm (((parse_data gc prs).map GroupData.items).flatten)
      (prs.map get_changelog_line) := by
  cases gc with
  | nil =>
    simp only [parse_data, List.map_cons, List.map_nil, List.flatten_cons,
      List.flatten_nil, List.append_nil]
    exact List.Perm.refl _
  | cons g gs =>
    by_cases h : (parse_data_groups (g :: gs) prs).2 = []
    · simp only [parse_data]
      rw [if_pos h]
      have hp := parse_data_groups_perm (g :: gs) prs
      rw [h] at hp
      simpa using hp
    · simp only [parse_data]
      rw [if_neg h]
      have hp := parse_data_groups_perm (g :: gs) prs
      simpa [List.map_append, List.flatten_append] using hp

/-- C5: frame property of the writer on an empty fetch.  When the search
call returns a non-200 status, or a 200 response with `total_count = 0`,
the fetched list is empty and `write_changelog` returns with the
changelog-file content unchanged (in particular a missing file stays
missing: the function returns before opening the file). -/
theorem c5_empty_fetch_leaves_file (cfg : Config) (t : String)
    (fc : Option String) (resp : SearchResponse)
    (h : resp.statusCode ≠ 200 ∨ resp.totalCount = 0) :
    get_pull_requests_after_last_release resp = []
    ∧ write_changelog cfg t (get_pull_requests_after_last_release resp) fc = fc := by
  have hempty : get_pull_requests_after_last_release resp = [] := by
    unfold get_pull_requests_after_last_release
    rcases h with h | h
    · rw [if_neg h]
    · by_cases h200 : resp.statusCode = 200
      · rw [if_pos h200, if_neg]
        omega
      · rw [if_neg h200]
  refine ⟨ hempty, ?_ ⟩
  rw [hempty]
  exact write_changelog_no_data cfg t fc

/-- C5 witness: a 404 search response whose body still carries items
yields an empty fetch, and writing with it leaves the file content
`KEEP` untouched. -/
theorem c5_witness :
    get_pull_requests_after_last_release respErr = []
    ∧ write_changelog cfgW ( "release 1.0" )
        (get_pull_requests_after_last_release respErr) (some ( "KEEP" ))
      = some ( "KEEP" ) :=
  c5_empty_fetch_leaves_file cfgW ( "release 1.0" ) (some ( "KEEP" )) respErr
    (Or.inl (by decide))

/-- C7: leftover and ungrouped handling.  With an empty `group_config`
everything lands in one group with empty title; with a non-empty
`group_config`, whenever the pool left after processing every configured
group is non-empty, `_parse_data` appends exactly one `#### Other Changes`
group holding precisely the rendered lines of that pool (and appends
nothing when the pool is empty); and every record renders as
`* [#<number>](<url>): <title>\n`. -/
theorem c7_grouping (gc : List GroupConfig) (prs : List PullRequest) :
    parse_data [] prs = [⟨ ("") , prs.map get_changelog_line ⟩]
    ∧ (gc ≠ [] → (parse_data_groups gc prs).2 ≠ [] →
        parse_data gc prs
          = (parse_data_groups gc prs).1
            ++ [⟨ "#### Other Changes" ++ "\n\n",
                  (parse_data_groups gc prs).2.map get_changelog_line ⟩])
    ∧ (gc ≠ [] → (parse_data_groups gc prs).2 = [] →
        parse_data gc prs = (parse_data_groups gc prs).1)
    ∧ (∀ pr : PullRequest,
        get_changelog_line pr
          = "* [#" ++ toString pr.number ++ "](" ++ pr.url ++ "): "
              ++ pr.title ++ "\n") := by
  refine ⟨ rfl, ?_, ?_, fun pr => rfl ⟩
  · intro hne hrem
    cases gc with
    | nil => exact absurd rfl hne
    | cons g gs =>
      simp only [parse_data]
      rw [if_neg hrem]
  · intro hne hrem
    cases gc with
    | nil => exact absurd rfl hne
    | cons g gs =>
      simp only [parse_data]
      rw [if_pos hrem]

/-- C7 witness: one configured group claims `prA1`, `prOther` stays in the
pool, and the output ends with the `Other Changes` group holding its
rendered line. -/
theorem c7_witness :
    parse_data [⟨ "A", ["a"] ⟩] [prA1, prOther]
      = (parse_data_groups [⟨ "A", ["a"] ⟩] [prA1, prOther]).1
        ++ [⟨ "#### Other Changes" ++ "\n\n",
              (parse_data_groups [⟨ "A", ["a"] ⟩] [prA1, prOther]).2.map
                get_changelog_line ⟩] :=
  (c7_grouping [⟨ "A", ["a"] ⟩] [prA1, prOther]).2.1 (by decide) (by decide)

/-- C8: release-lookup result.  On a 200 response
`_get_latest_release_date` returns the `published_at` timestamp of the
body; on every non-200 status (404 included) it returns the empty string —
a normal return, since the non-200 branch only logs a warning. -/
theorem c8_release_lookup (resp : ReleaseResponse) :
    (resp.statusCode = 200 →
      get_latest_release_date resp = resp.publishedAt)
    ∧ (resp.statusCode ≠ 200 → get_latest_release_date resp = ("")) := by
  constructor
  · intro h
    unfold get_latest_release_date
    rw [if_pos h]
  · intro h
    unfold get_latest_release_date
    rw [if_neg h]

/-- C8 witness: the 200 response yields its timestamp, the 404 response
yields the empty string. -/
theorem c8_witness :
    get_latest_release_date relHit = ( "2020-05-01T00:00:00Z" )
    ∧ get_latest_release_date relMiss = ("") :=
  ⟨ (c8_release_lookup relHit).1 rfl, (c8_release_lookup relMiss).2 (by decide) ⟩

/-- C10: the validator checks only presence, truthiness and the list type,
never element types: `cfgOdd`, whose `header_prefix` is the number 5 and
whose single group has the number 7 as title and the numbers 1 and 2 as
labels, is accepted. -/
theorem c10_validate_untyped :
    validate_config cfgOdd = .ok ()
    ∧ getKey cfgOdd ("header_prefix") = .int 5
    ∧ getKey cfgOdd ("group_config") = .list [grpOdd]
    ∧ getKey grpOdd ("title") = .int 7
    ∧ getKey grpOdd ("labels") = .list [ .int 1, .int 2 ] :=
  ⟨ rfl, rfl, rfl, rfl, rfl ⟩

/-- C2 counterexample: the title `release<TAB>1.0` starts with `release`
(case-insensitively) and its second whitespace-separated word is `1.0`,
so the claim says the derived version is `1.0`; but the code splits on
single space characters only, derives no version, and writes nothing. -/
theorem c2_counterexample :
    pyStartsWith (pyLower ( "release\t1.0" )) ( "release" ) = true
    ∧ whitespaceWords ( "release\t1.0" ) = [ "release", "1.0" ]
    ∧ get_version_number ( "release\t1.0" ) = ("")
    ∧ write_changelog cfgW ( "release\t1.0" ) [prW] (some ( "OLD" ))
        = some ( "OLD" ) := by
  refine ⟨ rfl, rfl, rfl, ?_ ⟩
  exact write_changelog_no_version cfgW ( "release\t1.0" ) [prW] (some ( "OLD" )) rfl

/-- C2 (amended): when the lowercased title starts with the string
`release`, the derived version is element 1 of the title split on single
space characters (empty tokens included), and `''` when that element does
not exist; a title failing the prefix test also yields `''`; and whenever
no version is derived, `write_changelog` leaves the file content
unchanged. -/
theorem c2_version_rule (cfg : Config) (t : String) (prs : List PullRequest)
    (fc : Option String) :
    (∀ v, pyStartsWith (pyLower t) ("release") = true →
      (pySplitSpace t).get? 1 = some v → get_version_number t = v)
    ∧ (pyStartsWith (pyLower t) ("release") = false →
        get_version_number t = (""))
    ∧ ((pySplitSpace t).get? 1 = none → get_version_number t = (""))
    ∧ (get_version_number t = ("") → write_changelog cfg t prs fc = fc) := by
  refine ⟨ ?_, ?_, ?_, ?_ ⟩
  · intro v hs hv
    unfold get_version_number
    rw [if_pos hs, hv]
  · intro hs
    simp only [get_version_number, hs, Bool.false_eq_true, if_false]
  · intro hv
    unfold get_version_number
    by_cases hs : pyStartsWith (pyLower t) ("release") = true
    · rw [if_pos hs, hv]
    · rw [Bool.not_eq_true] at hs
      simp only [hs, Bool.false_eq_true, if_false]
  · intro hv
    exact write_changelog_no_version cfg t prs fc hv

/-- C2 witness: the three examples of the claim: `Release 1.2.3 notes`
derives `1.2.3`; `Fix bug` derives nothing and nothing is written;
`release` alone derives nothing. -/
theorem c2_witness :
    get_version_number ( "Release 1.2.3 notes" ) = ( "1.2.3" )
    ∧ write_changelog cfgW ( "Fix bug" ) [prW] (some ( "OLD" )) = some ( "OLD" )
    ∧ get_version_number ( "release" ) = ("") :=
  ⟨ (c2_version_rule cfgW ( "Release 1.2.3 notes" ) [prW] none).1
      ( "1.2.3" ) rfl rfl,
    (c2_version_rule cfgW ( "Fix bug" ) [prW] (some ( "OLD" ))).2.2.2 rfl,
    (c2_version_rule cfgW ( "release" ) [prW] none).2.2.1 rfl ⟩

/-- C3 counterexample: at the end-to-end example of the spec (config
`Version:` / `Bug Fixes`-`bug`, title `Release 2.0.0 launch`, one matching
pull request, no prior file) the written section carries the group title
line followed by two blank lines before the bullet — the stored group
title already ends in two newlines and the writer adds one more — so it
differs from `specSectionC3`, the layout the claim describes, which has
exactly one blank line there. -/
theorem c3_counterexample :
    write_changelog cfgW ( "Release 2.0.0 launch" ) [prW] none
      = some ( "Version: 2.0.0\n==============\n\n#### Bug Fixes\n\n\n* [#5](http://x/5): Fix crash\n" )
    ∧ (( "Version: 2.0.0\n==============\n\n#### Bug Fixes\n\n\n* [#5](http://x/5): Fix crash\n" : String)
        == specSectionC3) = false := by
  exact ⟨ rfl, rfl ⟩

/-- C3 (amended): with a resolved version and a non-empty fetched list,
the fresh-file output is the header line `<headerPrefix> <version>`, an
`=` underline whose character count equals the header length, and then
the group blocks in order, where a group with the stored title
`#### <t>\n\n` and a non-empty item list contributes one blank line, the
title line, two blank lines, then its bullet lines; a group with no
items contributes a single newline; and the empty-title group contributes
a newline followed by its lines. -/
theorem c3_layout (cfg : Config) (t : String) (prs : List PullRequest)
    (hv : get_version_number t ≠ ("")) (hp : prs ≠ []) :
    write_changelog cfg t prs none
      = some (cfg.headerPrefix ++ " " ++ get_version_number t ++ "\n"
          ++ String.mk (List.replicate
              (cfg.headerPrefix ++ " " ++ get_version_number t).length '=') ++ "\n"
          ++ strJoin ((parse_data cfg.groupConfig prs).map render_group))
    ∧ (∀ (ct : String) (items : List String), items ≠ [] →
        render_group ⟨ "#### " ++ ct ++ "\n\n", items ⟩
          = "\n" ++ ("#### " ++ ct) ++ "\n" ++ "\n" ++ "\n" ++ strJoin items)
    ∧ (∀ s : String, render_group ⟨ s, [] ⟩ = "\n")
    ∧ (∀ items : List String,
        render_group ⟨ ("") , items ⟩ = "\n" ++ strJoin items) := by
  refine ⟨ write_changelog_none_eq cfg t prs hv hp, ?_, ?_, ?_ ⟩
  · intro ct items hitems
    have hne : ("#### " ++ ct ++ "\n\n" : String) ≠ ("") :=
      str_append_ne_empty_left ("#### ") (ct ++ "\n\n") (by decide)
    simp only [render_group]
    rw [if_pos ⟨hne, hitems⟩]
    have hnn : ( "\n\n" : String) = "\n" ++ "\n" := rfl
    rw [hnn]
    simp only [str_append_assoc]
  · intro s
    simp [render_group, strJoin, str_append_empty]
  · intro items
    simp [render_group, str_empty_append]

/-- C3 witness: the amended layout at the end-to-end example of the
spec. -/
theorem c3_witness :
    write_changelog cfgW ( "Release 2.0.0 launch" ) [prW] none
      = some (cfgW.headerPrefix ++ " " ++ get_version_number ( "Release 2.0.0 launch" ) ++ "\n"
          ++ String.mk (List.replicate
              (cfgW.headerPrefix ++ " "
                ++ get_version_number ( "Release 2.0.0 launch" )).length '=') ++ "\n"
          ++ strJoin ((parse_data cfgW.groupConfig [prW]).map render_group)) :=
  (c3_layout cfgW ( "Release 2.0.0 launch" ) [prW] (by decide) (by decide)).1

/-- C4: prepend round trip.  With a resolved version and a non-empty
fetched list, writing over prior non-empty content `b` yields exactly the
fresh-file section, then two newline characters, then `b` unchanged; the
fresh-file run creates the file; and prior empty content behaves like a
fresh file. -/
theorem c4_roundtrip (cfg : Config) (t : String) (prs : List PullRequest)
    (b : String) (hv : get_version_number t ≠ ("")) (hp : prs ≠ [])
    (hb : b ≠ ("")) :
    write_changelog cfg t prs (some b)
      = some ((write_changelog cfg t prs none).getD ("") ++ "\n\n" ++ b)
    ∧ (write_changelog cfg t prs none).isSome = true
    ∧ write_changelog cfg t prs (some ("")) = write_changelog cfg t prs none := by
  rw [write_changelog_none_eq cfg t prs hv hp,
    write_changelog_some_eq cfg t prs b hv hp hb]
  refine ⟨ ?_, rfl, ?_ ⟩
  · simp only [Option.getD_some, str_append_assoc]
  · unfold write_changelog
    rw [if_neg hv, if_neg hp]
    simp only [Option.getD_some, if_true]
    rw [foldl_render]

/-- C4 witness: the round trip at the end-to-end example of the spec with
prior content `OLD`. -/
theorem c4_witness :
    write_changelog cfgW ( "Release 2.0.0 launch" ) [prW] (some ( "OLD" ))
      = some ((write_changelog cfgW ( "Release 2.0.0 launch" ) [prW] none).getD ("")
          ++ "\n\n" ++ "OLD")
    ∧ (write_changelog cfgW ( "Release 2.0.0 launch" ) [prW] none).isSome = true
    ∧ write_changelog cfgW ( "Release 2.0.0 launch" ) [prW] (some (""))
        = write_changelog cfgW ( "Release 2.0.0 launch" ) [prW] none :=
  c4_roundtrip cfgW ( "Release 2.0.0 launch" ) [prW] ( "OLD" )
    (by decide) (by decide) (by decide)

/-- C6: `validate_config` returns normally on every config of the valid
shape (a mapping with non-empty string `header_prefix`, a `group_config`
list whose elements are mappings with non-empty string `title` and a
non-empty list `labels`), and raises on every config missing
`header_prefix`, on every config whose `group_config` value is not a
list, and on every config one of whose group entries is missing `title`
or `labels`. -/
theorem c6_validate (c : PyValue) :
    (ValidConfigShape c → validate_config c = .ok ())
    ∧ (hasKey c ("header_prefix") = false → isOk (validate_config c) = false)
    ∧ ((∀ gs : List PyValue, getKey c ("group_config") ≠ .list gs) →
        isOk (validate_config c) = false)
    ∧ (∀ (gs : List PyValue) (g : PyValue),
        getKey c ("group_config") = .list gs → g ∈ gs →
        (hasKey g ("title") = false ∨ hasKey g ("labels") = false) →
        isOk (validate_config c) = false) := by
  refine ⟨ ?_, ?_, ?_, ?_ ⟩
  · rintro ⟨⟨kvs, rfl⟩, ⟨h, hh, hhne⟩, ⟨gs, hgs, hval⟩⟩
    simp only [getKey] at hh hgs
    have ht : pyTruthy (dictGet kvs ("header_prefix")) = true := by
      rw [hh]
      simp only [pyTruthy, bne_iff_ne, ne_eq]
      exact hhne
    simp only [validate_config, ht, Bool.true_eq_false, if_false, hgs]
    exact validate_groups_ok gs hval
  · intro hnk
    cases c with
    | dict kvs =>
      simp only [hasKey] at hnk
      have hf : pyTruthy (dictGet kvs ("header_prefix")) = false := by
        rw [dictGet_of_no_key kvs ("header_prefix") hnk]
        rfl
      simp only [validate_config, hf, if_true, isOk]
    | none => rfl
    | bool b => rfl
    | int n => rfl
    | str s => rfl
    | list xs => rfl
  · intro hngc
    cases c with
    | dict kvs =>
      by_cases ht : pyTruthy (dictGet kvs ("header_prefix")) = true
      · simp only [getKey] at hngc
        simp only [validate_config, ht, Bool.true_eq_false, if_false]
        cases hgc : dictGet kvs ("group_config") with
        | list gs => exact absurd hgc (hngc gs)
        | none => rfl
        | bool b => rfl
        | int n => rfl
        | str s => rfl
        | dict d => rfl
      · rw [Bool.not_eq_true] at ht
        simp only [validate_config, ht, if_true, isOk]
    | none => rfl
    | bool b => rfl
    | int n => rfl
    | str s => rfl
    | list xs => rfl
  · intro gs g hgc hmem hbad
    cases c with
    | dict kvs =>
      simp only [getKey] at hgc
      by_cases ht : pyTruthy (dictGet kvs ("header_prefix")) = true
      · simp only [validate_config, ht, Bool.true_eq_false, if_false, hgc]
        exact validate_groups_err gs g hmem (validate_group_item_err g hbad)
      · rw [Bool.not_eq_true] at ht
        simp only [validate_config, ht, if_true, isOk]
    | none => exact absurd hgc (by simp [getKey])
    | bool b => exact absurd hgc (by simp [getKey])
    | int n => exact absurd hgc (by simp [getKey])
    | str s => exact absurd hgc (by simp [getKey])
    | list xs => exact absurd hgc (by simp [getKey])

/-- C6 witness: a valid config is accepted; a config without
`header_prefix`, a config whose `group_config` is the number 3, and a
config with a group entry missing `title` are all rejected. -/
theorem c6_witness :
    validate_config cValid = .ok ()
    ∧ isOk (validate_config cNoHeader) = false
    ∧ isOk (validate_config cBadGC) = false
    ∧ isOk (validate_config cBadGroup) = false := by
  refine ⟨ ?_, ?_, ?_, ?_ ⟩
  · refine (c6_validate cValid).1
      ⟨ ⟨_, rfl⟩, ⟨ "Version:", rfl, by decide ⟩, ⟨ _, rfl, ?_ ⟩ ⟩
    intro g hg
    rw [List.mem_singleton] at hg
    subst hg
    exact ⟨ ⟨_, rfl⟩, ⟨ "Bugs", rfl, by decide ⟩,
      ⟨ [ .str "bug" ], rfl, List.cons_ne_nil _ _ ⟩ ⟩
  · exact (c6_validate cNoHeader).2.1 rfl
  · refine (c6_validate cBadGC).2.2.1 ?_
    intro gs h
    exact PyValue.noConfusion h
  · exact (c6_validate cBadGroup).2.2.2
      [ .dict [( "labels", .list [ .str "x" ] )] ]
      (.dict [( "labels", .list [ .str "x" ] )])
      rfl (List.mem_singleton.mpr rfl) (Or.inl rfl)
